import Mathlib

/-!
A shallow embedding of the `DataTable` engine from
`src/lib/DataTable.svelte.ts` (the column-id revision of the
Careswitch svelte-data-table library).

Modelling conventions:
* JavaScript values flowing through column accessors are `JSValue`.
* The reactive class becomes explicit state passing over `TableState`;
  every method is a function from state (plus arguments) to state
  and/or a result.
* `Array.prototype.sort`, which ECMAScript requires to be stable, is
  modelled by a stable insertion sort `jsSort`.
* A compiled case-insensitive `RegExp` is an opaque test function
  `String → Bool`; the function compiling a pattern into a test is an
  abstract parameter wherever it is needed, so every theorem holds for
  any matcher.
* Methods that can throw a `TypeError` return `Option`.
-/

/-- JavaScript primitive values reachable through column accessors. -/
inductive JSValue : Type
  | str (s : String)
  | num (n : Int)
  | bool (b : Bool)
  | null
  | undefined
deriving DecidableEq

/-- ECMAScript `ToNumber` on the modelled values; `none` stands for NaN.
Strings are parsed as nonnegative decimal literals, which covers every
string compared numerically in this development. -/
def jsToNum : JSValue → Option Int
  | .num n => some n
  | .null => some 0
  | .bool b => some (if b then 1 else 0)
  | .undefined => none
  | .str s => s.toNat?.map Int.ofNat

/-- Lexicographic comparison of two character lists by code point — the
ECMAScript `<` on strings (a proper prefix is smaller). -/
def charsLt : List Char → List Char → Bool
  | [], [] => false
  | [], _ :: _ => true
  | _ :: _, [] => false
  | c :: cs, d :: ds =>
    if c.toNat < d.toNat then true
    else if d.toNat < c.toNat then false
    else charsLt cs ds

/-- The ECMAScript abstract relational comparison `a < b` on the modelled
values: two strings compare lexicographically, otherwise both operands go
through `ToNumber` and any NaN makes the comparison false. -/
def jsLt : JSValue → JSValue → Bool
  | .str a, .str b => charsLt a.data b.data
  | a, b =>
    match jsToNum a, jsToNum b with
    | some x, some y => decide (x < y)
    | _, _ => false

/-- `new Set(values)`: keep the first occurrence of each value, in order. -/
def jsSet (l : List JSValue) : List JSValue :=
  l.foldl (fun acc v => if acc.contains v then acc else acc ++ [v]) []

/-- Object update `{ ...m, [k]: v }`: overwrite in place when the key is
present, append otherwise (JavaScript objects keep insertion order). -/
def setKey (m : List (String × List JSValue)) (k : String) (v : List JSValue) :
    List (String × List JSValue) :=
  if m.any (fun p => p.1 == k) then
    m.map (fun p => if p.1 == k then (k, v) else p)
  else m ++ [(k, v)]

/-- Object property access `m[k]`: the value at the first matching key,
`none` when the key is absent (JavaScript `undefined`). -/
def getKey (m : List (String × List JSValue)) (k : String) : Option (List JSValue) :=
  match m with
  | [] => none
  | p :: ps => if p.1 == k then some p.2 else getKey ps k

/-- `Math.ceil(n / d)` for a nonnegative numerator `n` and a nonzero
integer denominator `d`. -/
def jsCeilDiv (n : Nat) (d : Int) : Int :=
  if 0 < d then Int.ofNat ((n + d.toNat - 1) / d.toNat)
  else - Int.ofNat (n / (-d).toNat)

/-- `Array.prototype.slice(start, stop)`: negative indices count from the
end of the array, and the selected range is clamped into bounds. -/
def jsSlice (l : List α) (start stop : Int) : List α :=
  let len : Int := l.length
  let s := if start < 0 then max (len + start) 0 else min start len
  let e := if stop < 0 then max (len + stop) 0 else min stop len
  (l.drop s.toNat).take (e - s).toNat

/-- Stable insertion step: `x` goes in front of the first element it does
not strictly exceed under the comparator, so elements comparing equal to
`x` that are already in the list stay in front of it only if the
comparator sends `x` strictly after them; an element inserted from the
left of the original sequence stops at the first tie. -/
def insertCmp (cmp : α → α → Int) (x : α) : List α → List α
  | [] => [x]
  | y :: ys => if cmp x y ≤ 0 then x :: y :: ys else y :: insertCmp cmp x ys

/-- A stable sort by an integer comparator, modelling
`Array.prototype.sort(cmp)` (which ECMAScript requires to be stable). -/
def jsSort (cmp : α → α → Int) : List α → List α
  | [] => []
  | x :: xs => insertCmp cmp x (jsSort cmp xs)

/-- Sort direction `'asc' | 'desc'`; the `null` case is `Option.none`. -/
inductive SortDir : Type
  | asc
  | desc
deriving DecidableEq

/-- `ColumnDef<T>`: `key` is the field selector `row[colDef.key]`
rendered as a function, the optional members mirror the interface. -/
structure ColumnDef (T : Type) where
  id : String
  key : T → JSValue
  name : String
  sortable : Option Bool := none
  getValue : Option (T → JSValue) := none
  sorter : Option (T → T → Int) := none
  filter : Option (JSValue → JSValue → T → Bool) := none

/-- The `#sortState` record `{ columnId: string | null; direction: SortDirection }`. -/
structure SortState where
  columnId : Option String
  direction : Option SortDir
deriving DecidableEq

/-- `#filterState`: a JavaScript object mapping column ids to sets,
modelled as an insertion-ordered association list with unique keys. -/
abbrev FilterState : Type := List (String × List JSValue)

/-- `TableConfig<T>` as accepted by the constructor. -/
structure TableConfig (T : Type) where
  data : List T
  columns : List (ColumnDef T)
  pageSize : Option Int := none
  initialSort : Option String := none
  initialSortDirection : Option SortDir := none
  initialFilters : List (String × List JSValue) := []

/-- The private fields of a `DataTable<T>` instance.  `globalFilterRegex`
stores the compiled case-insensitive test of the current pattern. -/
structure TableState (T : Type) where
  originalData : List T
  columns : List (ColumnDef T)
  pageSize : Int
  currentPage : Int
  sortState : SortState
  filterState : FilterState
  globalFilter : String
  globalFilterRegex : Option (String → Bool)
  isFilterDirty : Bool
  isSortDirty : Bool
  filteredData : List T
  sortedData : List T

/-- `#getColumnDef(id)`: first column whose id matches. -/
def getColumnDef (cols : List (ColumnDef T)) (cid : String) : Option (ColumnDef T) :=
  cols.find? (fun col => col.id == cid)

/-- `#getValue(row, columnId)`: `undefined` when the id does not resolve,
else the custom accessor, else the `key` field of the row. -/
def getValue (cols : List (ColumnDef T)) (row : T) (cid : String) : JSValue :=
  match getColumnDef cols cid with
  | none => .undefined
  | some cd =>
    match cd.getValue with
    | some g => g row
    | none => cd.key row

/-- `#matchesGlobalFilter(row)`: vacuously true with no compiled pattern,
else some column value must be a string accepted by the test. -/
def matchesGlobalFilter (cols : List (ColumnDef T)) (regex : Option (String → Bool))
    (row : T) : Bool :=
  match regex with
  | none => true
  | some test =>
    cols.any fun col =>
      match getValue cols row col.id with
      | .str s => test s
      | _ => false

/-- `#matchesFilters(row)`: every filter-state entry must pass; an empty
set passes, an id that resolves to no column passes, a custom `filter`
predicate is an existential over the set, otherwise set membership. -/
def matchesFilters (cols : List (ColumnDef T)) (fs : FilterState) (row : T) : Bool :=
  fs.all fun p =>
    if p.2.isEmpty then true
    else
      match getColumnDef cols p.1 with
      | none => true
      | some cd =>
        match cd.filter with
        | some f => p.2.any fun fv => f (getValue cols row p.1) fv row
        | none => p.2.contains (getValue cols row p.1)

/-- The filter pass of `#applyFilters`: rows passing both predicates. -/
def computeFiltered (cols : List (ColumnDef T)) (fs : FilterState)
    (regex : Option (String → Bool)) (data : List T) : List T :=
  data.filter fun row => matchesGlobalFilter cols regex row && matchesFilters cols fs row

/-- The built-in relational comparator of `#applySort`, used when the
column has no custom sorter (also when the sort column does not resolve). -/
def defaultCmp (cols : List (ColumnDef T)) (cid : String) (dir : SortDir) (a b : T) : Int :=
  let aVal := getValue cols a cid
  let bVal := getValue cols b cid
  if jsLt aVal bVal then (match dir with | .asc => -1 | .desc => 1)
  else if jsLt bVal aVal then (match dir with | .asc => 1 | .desc => -1)
  else 0

/-- The comparator passed to `sort` by `#applySort`: a custom sorter is
called on the two rows, with the arguments swapped for `'desc'`;
otherwise the built-in comparison on resolved values. -/
def sortCmp (cols : List (ColumnDef T)) (cid : String) (dir : SortDir) (a b : T) : Int :=
  match getColumnDef cols cid with
  | some cd =>
    match cd.sorter with
    | some f => (match dir with | .asc => f a b | .desc => f b a)
    | none => defaultCmp cols cid dir a b
  | none => defaultCmp cols cid dir a b

/-- The sort pass of `#applySort`: with an active sort (truthy column id
and non-null direction) sort the list, else copy it unchanged. -/
def computeSorted (cols : List (ColumnDef T)) (ss : SortState) (l : List T) : List T :=
  match ss.columnId, ss.direction with
  | some cid, some dir => if cid = "" then l else jsSort (sortCmp cols cid dir) l
  | _, _ => l

/-- The constructor.  `config.pageSize || 10` replaces the falsy page
sizes (`undefined`, `0`) by the default 10; `if (config.initialSort)`
ignores a falsy (absent or empty) initial sort id, and
`initialSortDirection || 'asc'` replaces a null direction by `'asc'`;
the filter state is seeded with one entry per column, from
`initialFilters` when that names the column id (even with an empty
array, which is truthy) and empty otherwise. -/
def mkTable (cfg : TableConfig T) : TableState T where
  originalData := cfg.data
  columns := cfg.columns
  pageSize :=
    match cfg.pageSize with
    | some n => if n = 0 then 10 else n
    | none => 10
  currentPage := 1
  sortState :=
    match cfg.initialSort with
    | some s =>
      if s = "" then { columnId := none, direction := none }
      else { columnId := some s, direction := some (cfg.initialSortDirection.getD .asc) }
    | none => { columnId := none, direction := none }
  filterState :=
    cfg.columns.foldl
      (fun m col =>
        setKey m col.id
          (match getKey cfg.initialFilters col.id with
           | some l => jsSet l
           | none => []))
      []
  globalFilter := ""
  globalFilterRegex := none
  isFilterDirty := true
  isSortDirty := true
  filteredData := []
  sortedData := []

/-- The fresh value of the filter pass on the current inputs. -/
def freshFiltered (st : TableState T) : List T :=
  computeFiltered st.columns st.filterState st.globalFilterRegex st.originalData

/-- `#applyFilters()`: recompute the filtered cache only when the filter
stage is dirty; a fresh pass always marks the sort stage dirty. -/
def applyFilters (st : TableState T) : TableState T :=
  if st.isFilterDirty = true then
    { st with filteredData := freshFiltered st, isFilterDirty := false, isSortDirty := true }
  else st

/-- `#applySort()`: recompute the sorted cache only when the sort stage
is dirty. -/
def applySort (st : TableState T) : TableState T :=
  if st.isSortDirty = true then
    { st with sortedData := computeSorted st.columns st.sortState st.filteredData,
              isSortDirty := false }
  else st

/-- The `rows` getter: run both pipeline stages, then slice out the page
`[(currentPage - 1) * pageSize, currentPage * pageSize)`. -/
def readRows (st : TableState T) : List T × TableState T :=
  (jsSlice (applySort (applyFilters st)).sortedData
    (((applySort (applyFilters st)).currentPage - 1) * (applySort (applyFilters st)).pageSize)
    (((applySort (applyFilters st)).currentPage - 1) * (applySort (applyFilters st)).pageSize +
      (applySort (applyFilters st)).pageSize),
   applySort (applyFilters st))

/-- The `totalPages` getter: run the filter stage, then
`Math.max(1, Math.ceil(filtered.length / pageSize))`. -/
def readTotalPages (st : TableState T) : Int × TableState T :=
  let st1 := applyFilters st
  (max 1 (jsCeilDiv st1.filteredData.length st1.pageSize), st1)

/-- The `currentPage` setter: clamp the written page into
`[1, totalPages]`, where reading `totalPages` refreshes the filter cache. -/
def setCurrentPage (st : TableState T) (page : Int) : TableState T :=
  let r := readTotalPages st
  { r.2 with currentPage := max 1 (min page r.1) }

/-- The `globalFilter` setter: store the string, recompile the
case-insensitive pattern (no pattern for a blank string), reset the page
and mark the filter stage dirty.  `compile` abstracts `new RegExp(·, 'i')`. -/
def setGlobalFilter (compile : String → String → Bool) (st : TableState T)
    (value : String) : TableState T :=
  { st with globalFilter := value,
            globalFilterRegex := if value.trim ≠ "" then some (compile value) else none,
            currentPage := 1,
            isFilterDirty := true }

/-- The `baseRows` setter: defensively copy the new collection, reset the
page to 1 and mark the filter stage dirty; nothing else changes. -/
def setBaseRows (st : TableState T) (rows : List T) : TableState T :=
  { st with originalData := rows, currentPage := 1, isFilterDirty := true }

/-- `toggleSort(columnId)`: a no-op when the id does not resolve or the
column is explicitly not sortable; cycling `asc → desc → null → asc` on
the active column, jumping to `asc` on a new column. -/
def toggleSort (st : TableState T) (cid : String) : TableState T :=
  match getColumnDef st.columns cid with
  | none => st
  | some cd =>
    if cd.sortable = some false then st
    else
      if st.sortState.columnId = some cid then
        { st with isSortDirty := true,
                  sortState :=
                    { columnId := some cid,
                      direction :=
                        match st.sortState.direction with
                        | some .asc => some .desc
                        | some .desc => none
                        | none => some .asc } }
      else
        { st with isSortDirty := true,
                  sortState := { columnId := some cid, direction := some .asc } }

/-- `getSortState(columnId)`: the active direction for the column, else null. -/
def getSortState (st : TableState T) (cid : String) : Option SortDir :=
  if st.sortState.columnId = some cid then st.sortState.direction else none

/-- `isSortable(columnId)`: `colDef?.sortable !== false`. -/
def isSortable (st : TableState T) (cid : String) : Bool :=
  match getColumnDef st.columns cid with
  | none => true
  | some cd => decide (cd.sortable ≠ some false)

/-- `setFilter(columnId, values)`: overwrite the entry with a fresh set,
mark the filter stage dirty and reset the page.  The column id is not
checked against the registry. -/
def setFilter (st : TableState T) (cid : String) (values : List JSValue) : TableState T :=
  { st with isFilterDirty := true,
            filterState := setKey st.filterState cid (jsSet values),
            currentPage := 1 }

/-- `clearFilter(columnId)`: overwrite the entry with an empty set, mark
the filter stage dirty and reset the page. -/
def clearFilter (st : TableState T) (cid : String) : TableState T :=
  { st with isFilterDirty := true,
            filterState := setKey st.filterState cid [],
            currentPage := 1 }

/-- `isFilterActive(columnId, value)`: membership in the column's set;
`none` models the `TypeError` thrown when the id has no entry
(`#filterState[columnId]` is `undefined`). -/
def isFilterActive (st : TableState T) (cid : String) (v : JSValue) : Option Bool :=
  (getKey st.filterState cid).map fun s => s.contains v

/-- `toggleFilter(columnId, value)`: remove the value when present, add
it otherwise; `none` models the `TypeError` thrown when the id has no
entry.  (In JavaScript the dirty flag is raised before the throw; that
partial write is dropped by the `Option` model and affects no claim.) -/
def toggleFilter (st : TableState T) (cid : String) (v : JSValue) :
    Option (TableState T) :=
  match getKey st.filterState cid with
  | none => none
  | some cur =>
    let newSet := if cur.contains v then cur.filter (fun x => x != v) else jsSet (cur ++ [v])
    some { st with isFilterDirty := true,
                   filterState := setKey st.filterState cid newSet,
                   currentPage := 1 }

/-- States reachable through the public constructor, mutators and the
cache-refreshing reads, for a fixed abstract pattern compiler. -/
inductive Reachable (compile : String → String → Bool) : TableState T → Prop where
  | init (cfg : TableConfig T) : Reachable compile (mkTable cfg)
  | pageWrite (st : TableState T) (p : Int) :
      Reachable compile st → Reachable compile (setCurrentPage st p)
  | globalWrite (st : TableState T) (v : String) :
      Reachable compile st → Reachable compile (setGlobalFilter compile st v)
  | baseWrite (st : TableState T) (l : List T) :
      Reachable compile st → Reachable compile (setBaseRows st l)
  | sortToggle (st : TableState T) (cid : String) :
      Reachable compile st → Reachable compile (toggleSort st cid)
  | filterWrite (st : TableState T) (cid : String) (vs : List JSValue) :
      Reachable compile st → Reachable compile (setFilter st cid vs)
  | filterClear (st : TableState T) (cid : String) :
      Reachable compile st → Reachable compile (clearFilter st cid)
  | filterToggle (st st2 : TableState T) (cid : String) (v : JSValue) :
      Reachable compile st → toggleFilter st cid v = some st2 → Reachable compile st2
  | rowsRead (st : TableState T) :
      Reachable compile st → Reachable compile (readRows st).2
  | totalPagesRead (st : TableState T) :
      Reachable compile st → Reachable compile (readTotalPages st).2

/-! ### Stability of the sort -/

theorem insertCmp_length (cmp : α → α → Int) (x : α) (l : List α) :
    (insertCmp cmp x l).length = l.length + 1 := by
  induction l with
  | nil => rfl
  | cons y ys ih =>
    simp only [insertCmp]
    split
    · rfl
    · simp [List.length_cons, ih]

theorem jsSort_length (cmp : α → α → Int) (l : List α) :
    (jsSort cmp l).length = l.length := by
  induction l with
  | nil => rfl
  | cons x xs ih => simp [jsSort, insertCmp_length, ih]

theorem sublist_insertCmp (cmp : α → α → Int) (x : α) (l : List α) :
    List.Sublist l (insertCmp cmp x l) := by
  induction l with
  | nil => exact List.nil_sublist _
  | cons y ys ih =>
    simp only [insertCmp]
    split
    · exact (List.Sublist.refl _).cons x
    · exact ih.cons₂ y

theorem cons_sublist_insertCmp (cmp : α → α → Int) (x : α) :
    ∀ (s t : List α), List.Sublist t s → (∀ b ∈ t, cmp x b ≤ 0) →
      List.Sublist (x :: t) (insertCmp cmp x s) := by
  intro s
  induction s with
  | nil =>
    intro t ht _
    rw [List.sublist_nil.mp ht]
    exact List.Sublist.refl _
  | cons y ys ih =>
    intro t ht hle
    simp only [insertCmp]
    split
    · exact ht.cons₂ x
    · rename_i hgt
      cases ht with
      | cons _ h2 => exact (ih t h2 hle).cons y
      | cons₂ _ h2 => exact absurd (hle y (List.mem_cons_self y _)) hgt

theorem jsSort_stable (cmp : α → α → Int) :
    ∀ (l l2 : List α), List.Sublist l2 l → l2.Pairwise (fun a b => cmp a b ≤ 0) →
      List.Sublist l2 (jsSort cmp l) := by
  intro l
  induction l with
  | nil =>
    intro l2 h _
    simpa [jsSort] using h
  | cons x xs ih =>
    intro l2 h hp
    cases h with
    | cons _ h2 =>
      exact (ih l2 h2 hp).trans (sublist_insertCmp cmp x _)
    | cons₂ _ h2 =>
      rename_i t
      rw [List.pairwise_cons] at hp
      exact cons_sublist_insertCmp cmp x _ t (ih t h2 hp.2) hp.1

/-! ### Projection lemmas for the pipeline stages -/

theorem applyFilters_pageSize (st : TableState T) :
    (applyFilters st).pageSize = st.pageSize := by
  unfold applyFilters; split <;> rfl

theorem applyFilters_currentPage (st : TableState T) :
    (applyFilters st).currentPage = st.currentPage := by
  unfold applyFilters; split <;> rfl

theorem applyFilters_columns (st : TableState T) :
    (applyFilters st).columns = st.columns := by
  unfold applyFilters; split <;> rfl

theorem applyFilters_sortState (st : TableState T) :
    (applyFilters st).sortState = st.sortState := by
  unfold applyFilters; split <;> rfl

theorem applyFilters_filterState (st : TableState T) :
    (applyFilters st).filterState = st.filterState := by
  unfold applyFilters; split <;> rfl

theorem applyFilters_globalFilter (st : TableState T) :
    (applyFilters st).globalFilter = st.globalFilter := by
  unfold applyFilters; split <;> rfl

theorem applyFilters_globalFilterRegex (st : TableState T) :
    (applyFilters st).globalFilterRegex = st.globalFilterRegex := by
  unfold applyFilters; split <;> rfl

theorem applyFilters_originalData (st : TableState T) :
    (applyFilters st).originalData = st.originalData := by
  unfold applyFilters; split <;> rfl

theorem applyFilters_isFilterDirty (st : TableState T) :
    (applyFilters st).isFilterDirty = false := by
  unfold applyFilters
  split
  · rfl
  · rename_i h
    simpa using h

theorem freshFiltered_applyFilters (st : TableState T) :
    freshFiltered (applyFilters st) = freshFiltered st := by
  unfold applyFilters; split <;> rfl

theorem applyFilters_filteredData (st : TableState T)
    (h : st.isFilterDirty = false → st.filteredData = freshFiltered st) :
    (applyFilters st).filteredData = freshFiltered st := by
  unfold applyFilters
  split
  · rfl
  · rename_i hc
    exact h (by simpa using hc)

theorem applyFilters_of_clean (st : TableState T) (h : st.isFilterDirty = false) :
    applyFilters st = st := by
  unfold applyFilters
  rw [h]
  simp

theorem applyFilters_dirty_filteredData (st : TableState T) (h : st.isFilterDirty = true) :
    (applyFilters st).filteredData = freshFiltered st := by
  unfold applyFilters
  rw [h]
  simp

theorem applyFilters_dirty_isSortDirty (st : TableState T) (h : st.isFilterDirty = true) :
    (applyFilters st).isSortDirty = true := by
  unfold applyFilters
  rw [h]
  simp

theorem applySort_pageSize (st : TableState T) :
    (applySort st).pageSize = st.pageSize := by
  unfold applySort; split <;> rfl

theorem applySort_currentPage (st : TableState T) :
    (applySort st).currentPage = st.currentPage := by
  unfold applySort; split <;> rfl

theorem applySort_columns (st : TableState T) :
    (applySort st).columns = st.columns := by
  unfold applySort; split <;> rfl

theorem applySort_sortState (st : TableState T) :
    (applySort st).sortState = st.sortState := by
  unfold applySort; split <;> rfl

theorem applySort_filterState (st : TableState T) :
    (applySort st).filterState = st.filterState := by
  unfold applySort; split <;> rfl

theorem applySort_globalFilter (st : TableState T) :
    (applySort st).globalFilter = st.globalFilter := by
  unfold applySort; split <;> rfl

theorem applySort_globalFilterRegex (st : TableState T) :
    (applySort st).globalFilterRegex = st.globalFilterRegex := by
  unfold applySort; split <;> rfl

theorem applySort_originalData (st : TableState T) :
    (applySort st).originalData = st.originalData := by
  unfold applySort; split <;> rfl

theorem applySort_filteredData (st : TableState T) :
    (applySort st).filteredData = st.filteredData := by
  unfold applySort; split <;> rfl

theorem applySort_isFilterDirty (st : TableState T) :
    (applySort st).isFilterDirty = st.isFilterDirty := by
  unfold applySort; split <;> rfl

theorem applySort_isSortDirty (st : TableState T) :
    (applySort st).isSortDirty = false := by
  unfold applySort
  split
  · rfl
  · rename_i h
    simpa using h

theorem freshFiltered_applySort (st : TableState T) :
    freshFiltered (applySort st) = freshFiltered st := by
  unfold applySort; split <;> rfl

theorem applySort_of_clean (st : TableState T) (h : st.isSortDirty = false) :
    applySort st = st := by
  unfold applySort
  rw [h]
  simp

theorem applySort_dirty_sortedData (st : TableState T) (h : st.isSortDirty = true) :
    (applySort st).sortedData = computeSorted st.columns st.sortState st.filteredData := by
  unfold applySort
  rw [h]
  simp

/-! ### Field lemmas for the mutators -/

theorem toggleSort_fields (st : TableState T) (cid : String) :
    (toggleSort st cid).currentPage = st.currentPage ∧
    (toggleSort st cid).pageSize = st.pageSize ∧
    (toggleSort st cid).columns = st.columns ∧
    (toggleSort st cid).filterState = st.filterState ∧
    (toggleSort st cid).globalFilter = st.globalFilter ∧
    (toggleSort st cid).globalFilterRegex = st.globalFilterRegex ∧
    (toggleSort st cid).originalData = st.originalData ∧
    (toggleSort st cid).isFilterDirty = st.isFilterDirty ∧
    (toggleSort st cid).filteredData = st.filteredData := by
  unfold toggleSort
  split
  · exact ⟨rfl, rfl, rfl, rfl, rfl, rfl, rfl, rfl, rfl⟩
  · split
    · exact ⟨rfl, rfl, rfl, rfl, rfl, rfl, rfl, rfl, rfl⟩
    · split <;> exact ⟨rfl, rfl, rfl, rfl, rfl, rfl, rfl, rfl, rfl⟩

theorem freshFiltered_toggleSort (st : TableState T) (cid : String) :
    freshFiltered (toggleSort st cid) = freshFiltered st := by
  unfold toggleSort
  split
  · rfl
  · split
    · rfl
    · split <;> rfl

theorem toggleSort_sortState_columnId (st : TableState T) (cid : String) :
    (toggleSort st cid).sortState.columnId = st.sortState.columnId ∨
    (toggleSort st cid).sortState.columnId = some cid := by
  unfold toggleSort
  split
  · exact Or.inl rfl
  · split
    · exact Or.inl rfl
    · split <;> exact Or.inr rfl

theorem toggleSort_of_unknown (st : TableState T) (cid : String)
    (h : getColumnDef st.columns cid = none) : toggleSort st cid = st := by
  unfold toggleSort
  rw [h]

theorem toggleFilter_fields (st st2 : TableState T) (cid : String) (v : JSValue)
    (h : toggleFilter st cid v = some st2) :
    st2.currentPage = 1 ∧ st2.pageSize = st.pageSize ∧ st2.columns = st.columns ∧
    st2.isFilterDirty = true ∧ st2.sortState = st.sortState := by
  unfold toggleFilter at h
  split at h
  · exact absurd h (by simp)
  · cases h
    exact ⟨rfl, rfl, rfl, rfl, rfl⟩

/-! ### Pagination invariant -/

/-- The page count over the fresh filter pass (what `totalPages` shows
after any pending recomputation). -/
def totalPagesSpec (st : TableState T) : Int :=
  max 1 (jsCeilDiv (freshFiltered st).length st.pageSize)

theorem totalPagesSpec_applyFilters (st : TableState T) :
    totalPagesSpec (applyFilters st) = totalPagesSpec st := by
  unfold totalPagesSpec
  rw [freshFiltered_applyFilters, applyFilters_pageSize]

theorem totalPagesSpec_applySort (st : TableState T) :
    totalPagesSpec (applySort st) = totalPagesSpec st := by
  unfold totalPagesSpec
  rw [freshFiltered_applySort, applySort_pageSize]

theorem one_le_totalPagesSpec (st : TableState T) : 1 ≤ totalPagesSpec st :=
  le_max_left 1 _

/-- Cache coherence plus page bounds: the induction invariant behind the
pagination claims. -/
def PageInv (st : TableState T) : Prop :=
  (st.isFilterDirty = false → st.filteredData = freshFiltered st) ∧
  1 ≤ st.currentPage ∧ st.currentPage ≤ totalPagesSpec st

theorem reachable_pageInv (compile : String → String → Bool) (st : TableState T)
    (h : Reachable compile st) : PageInv st := by
  induction h with
  | init cfg =>
    refine ⟨fun hd => ?_, ?_, ?_⟩
    · simp [mkTable] at hd
    · show (1 : Int) ≤ 1
      exact le_refl 1
    · show (1 : Int) ≤ totalPagesSpec _
      exact one_le_totalPagesSpec _
  | pageWrite st p _ ih =>
    have hfd : (applyFilters st).filteredData = freshFiltered st :=
      applyFilters_filteredData st ih.1
    have hr1 : (readTotalPages st).1 = totalPagesSpec st := by
      show max 1 (jsCeilDiv (applyFilters st).filteredData.length
        (applyFilters st).pageSize) = _
      rw [hfd, applyFilters_pageSize]
      rfl
    have hcp : (setCurrentPage st p).currentPage = max 1 (min p (readTotalPages st).1) := rfl
    have hfd2 : (setCurrentPage st p).filteredData = (applyFilters st).filteredData := rfl
    have hfresh : freshFiltered (setCurrentPage st p) = freshFiltered st := by
      show freshFiltered (applyFilters st) = freshFiltered st
      exact freshFiltered_applyFilters st
    have htp : totalPagesSpec (setCurrentPage st p) = totalPagesSpec st := by
      show totalPagesSpec (applyFilters st) = totalPagesSpec st
      exact totalPagesSpec_applyFilters st
    refine ⟨fun hd => ?_, ?_, ?_⟩
    · rw [hfd2, hfd, hfresh]
    · rw [hcp]
      exact le_max_left _ _
    · rw [hcp, htp, ← hr1]
      refine max_le ?_ (min_le_right _ _)
      rw [hr1]
      exact one_le_totalPagesSpec st
  | globalWrite st v _ ih =>
    refine ⟨fun hd => ?_, ?_, ?_⟩
    · simp [setGlobalFilter] at hd
    · show (1 : Int) ≤ 1
      exact le_refl 1
    · show (1 : Int) ≤ totalPagesSpec _
      exact one_le_totalPagesSpec _
  | baseWrite st l _ ih =>
    refine ⟨fun hd => ?_, ?_, ?_⟩
    · simp [setBaseRows] at hd
    · show (1 : Int) ≤ 1
      exact le_refl 1
    · show (1 : Int) ≤ totalPagesSpec _
      exact one_le_totalPagesSpec _
  | sortToggle st cid _ ih =>
    obtain ⟨hcp, hps, hcols, hfs, hgf, hgr, hod, hifd, hfd⟩ := toggleSort_fields st cid
    have hfresh := freshFiltered_toggleSort st cid
    have htp : totalPagesSpec (toggleSort st cid) = totalPagesSpec st := by
      unfold totalPagesSpec
      rw [hfresh, hps]
    refine ⟨fun hd => ?_, ?_, ?_⟩
    · rw [hfd, hfresh]
      exact ih.1 (hifd ▸ hd)
    · rw [hcp]
      exact ih.2.1
    · rw [hcp, htp]
      exact ih.2.2
  | filterWrite st cid vs _ ih =>
    refine ⟨fun hd => ?_, ?_, ?_⟩
    · simp [setFilter] at hd
    · show (1 : Int) ≤ 1
      exact le_refl 1
    · show (1 : Int) ≤ totalPagesSpec _
      exact one_le_totalPagesSpec _
  | filterClear st cid _ ih =>
    refine ⟨fun hd => ?_, ?_, ?_⟩
    · simp [clearFilter] at hd
    · show (1 : Int) ≤ 1
      exact le_refl 1
    · show (1 : Int) ≤ totalPagesSpec _
      exact one_le_totalPagesSpec _
  | filterToggle st st2 cid v _ heq ih =>
    obtain ⟨hcp, hps, hcols, hifd, hss⟩ := toggleFilter_fields st st2 cid v heq
    refine ⟨fun hd => ?_, ?_, ?_⟩
    · rw [hifd] at hd
      cases hd
    · rw [hcp]
    · rw [hcp]
      exact one_le_totalPagesSpec _
  | rowsRead st _ ih =>
    have hr : (readRows st).2 = applySort (applyFilters st) := rfl
    rw [hr]
    have hfd : (applyFilters st).filteredData = freshFiltered st :=
      applyFilters_filteredData st ih.1
    refine ⟨fun hd => ?_, ?_, ?_⟩
    · rw [applySort_filteredData, hfd, freshFiltered_applySort, freshFiltered_applyFilters]
    · rw [applySort_currentPage, applyFilters_currentPage]
      exact ih.2.1
    · rw [applySort_currentPage, applyFilters_currentPage, totalPagesSpec_applySort,
        totalPagesSpec_applyFilters]
      exact ih.2.2
  | totalPagesRead st _ ih =>
    have hr : (readTotalPages st).2 = applyFilters st := rfl
    rw [hr]
    have hfd : (applyFilters st).filteredData = freshFiltered st :=
      applyFilters_filteredData st ih.1
    refine ⟨fun hd => ?_, ?_, ?_⟩
    · rw [hfd, freshFiltered_applyFilters]
    · rw [applyFilters_currentPage]
      exact ih.2.1
    · rw [applyFilters_currentPage, totalPagesSpec_applyFilters]
      exact ih.2.2

/-! ### Sort-state nullity -/

theorem toggleSort_sortState_cases (st : TableState T) (cid : String) :
    (toggleSort st cid).sortState = st.sortState ∨
    (toggleSort st cid).sortState.columnId = some cid := by
  unfold toggleSort
  split
  · exact Or.inl rfl
  · split
    · exact Or.inl rfl
    · split <;> exact Or.inr rfl

/-- C4 (amended): the claimed biconditional `direction === null` iff
`columnId === null` fails — after the third `toggleSort` on a column the
stored state is `{ columnId, direction: null }` (see the counterexample);
what every reachable state does satisfy is the forward half: a null
`columnId` forces a null `direction` (so a sort is active exactly when
both are non-null). -/
theorem c4_sortstate_invariant (compile : String → String → Bool) {T : Type}
    (st : TableState T) (h : Reachable compile st) :
    st.sortState.columnId = none → st.sortState.direction = none := by
  induction h with
  | init cfg =>
    intro hc
    cases h2 : cfg.initialSort with
    | none =>
      have hss : (mkTable cfg).sortState = { columnId := none, direction := none } := by
        unfold mkTable
        rw [h2]
      rw [hss]
    | some s =>
      have hss : (mkTable cfg).sortState =
          (if s = "" then { columnId := none, direction := none }
           else { columnId := some s,
                  direction := some (cfg.initialSortDirection.getD .asc) }) := by
        unfold mkTable
        rw [h2]
      rw [hss] at hc ⊢
      by_cases he : s = ""
      · rw [if_pos he]
      · rw [if_neg he] at hc
        simp at hc
  | pageWrite st p _ ih =>
    have hss : (setCurrentPage st p).sortState = st.sortState := by
      show (applyFilters st).sortState = st.sortState
      exact applyFilters_sortState st
    rw [hss]
    exact ih
  | globalWrite st v _ ih =>
    have hss : (setGlobalFilter compile st v).sortState = st.sortState := rfl
    rw [hss]
    exact ih
  | baseWrite st l _ ih =>
    have hss : (setBaseRows st l).sortState = st.sortState := rfl
    rw [hss]
    exact ih
  | sortToggle st cid _ ih =>
    rcases toggleSort_sortState_cases st cid with h2 | h2
    · rw [h2]
      exact ih
    · intro hc
      rw [h2] at hc
      simp at hc
  | filterWrite st cid vs _ ih =>
    have hss : (setFilter st cid vs).sortState = st.sortState := rfl
    rw [hss]
    exact ih
  | filterClear st cid _ ih =>
    have hss : (clearFilter st cid).sortState = st.sortState := rfl
    rw [hss]
    exact ih
  | filterToggle st st2 cid v _ heq ih =>
    have hss := (toggleFilter_fields st st2 cid v heq).2.2.2.2
    rw [hss]
    exact ih
  | rowsRead st _ ih =>
    have hss : ((readRows st).2).sortState = st.sortState := by
      show (applySort (applyFilters st)).sortState = st.sortState
      rw [applySort_sortState, applyFilters_sortState]
    rw [hss]
    exact ih
  | totalPagesRead st _ ih =>
    have hss : ((readTotalPages st).2).sortState = st.sortState := applyFilters_sortState st
    rw [hss]
    exact ih

/-! ### Concrete instances used by witnesses and counterexamples -/

/-- A trivial pattern compiler for concrete instances (no claim depends
on the matcher's behaviour). -/
def falseCompile : String → String → Bool := fun _ _ => false

/-- A single numeric column with id "a". -/
def colA : ColumnDef Int := { id := "a", key := fun n => JSValue.num n, name := "A" }

/-- A table over `colA` with no rows. -/
def cfgA : TableConfig Int := { data := [], columns := [colA] }

/-- Three rows over `colA`, two rows per page. -/
def cfgC3w : TableConfig Int := { data := [10, 20, 30], columns := [colA], pageSize := some 2 }

/-- C4 counterexample: starting from no sort, toggling column "a" three
times reaches the state `{ columnId: "a", direction: null }`, where
`direction === null` holds but `columnId === null` fails — refuting the
claimed biconditional in a reachable state. -/
theorem c4_counterexample :
    Reachable falseCompile (toggleSort (toggleSort (toggleSort (mkTable cfgA) "a") "a") "a") ∧
    (toggleSort (toggleSort (toggleSort (mkTable cfgA) "a") "a") "a").sortState =
      { columnId := some "a", direction := none } := by
  constructor
  · apply Reachable.sortToggle
    apply Reachable.sortToggle
    apply Reachable.sortToggle
    exact Reachable.init cfgA
  · rfl

/-- C4 witness: the amended invariant applied to a freshly constructed
table with no initial sort. -/
theorem c4_witness :
    Reachable falseCompile (mkTable cfgA) ∧
    (mkTable cfgA).sortState.columnId = none ∧
    (mkTable cfgA).sortState.direction = none := by
  have hr : Reachable falseCompile (mkTable cfgA) := Reachable.init cfgA
  exact ⟨hr, rfl, c4_sortstate_invariant falseCompile (mkTable cfgA) hr rfl⟩

/-- C3: in every state reachable by public mutators and reads, with a
positive page size, the `totalPages` read returns
`max(1, ceil(filteredCount / pageSize))` over the freshly filtered row
count (even when served from the cache), is at least 1, and
`1 ≤ currentPage ≤ totalPages` holds. -/
theorem c3_pagination_invariant (compile : String → String → Bool) {T : Type}
    (st : TableState T) (h : Reachable compile st) (hps : 0 < st.pageSize) :
    (readTotalPages st).1 =
      max 1 (Int.ofNat (((freshFiltered st).length + st.pageSize.toNat - 1) /
        st.pageSize.toNat)) ∧
    1 ≤ (readTotalPages st).1 ∧
    1 ≤ st.currentPage ∧ st.currentPage ≤ (readTotalPages st).1 := by
  have hinv := reachable_pageInv compile st h
  have h1 : (readTotalPages st).1 = totalPagesSpec st := by
    show max 1 (jsCeilDiv (applyFilters st).filteredData.length
      (applyFilters st).pageSize) = _
    rw [applyFilters_filteredData st hinv.1, applyFilters_pageSize]
    rfl
  refine ⟨?_, ?_, hinv.2.1, ?_⟩
  · rw [h1]
    unfold totalPagesSpec jsCeilDiv
    rw [if_pos hps]
  · rw [h1]
    exact one_le_totalPagesSpec st
  · rw [h1]
    exact hinv.2.2

/-- C3 witness: a fresh three-row table with page size 2 satisfies the
pagination invariant, with `totalPages` evaluating to 2. -/
theorem c3_witness :
    Reachable falseCompile (mkTable cfgC3w) ∧ (0 : Int) < (mkTable cfgC3w).pageSize ∧
    1 ≤ (mkTable cfgC3w).currentPage ∧
    (mkTable cfgC3w).currentPage ≤ (readTotalPages (mkTable cfgC3w)).1 ∧
    (readTotalPages (mkTable cfgC3w)).1 = 2 := by
  have hr : Reachable falseCompile (mkTable cfgC3w) := Reachable.init cfgC3w
  have hp : (0 : Int) < (mkTable cfgC3w).pageSize := by decide
  have hc := c3_pagination_invariant falseCompile (mkTable cfgC3w) hr hp
  exact ⟨hr, hp, hc.2.2.1, hc.2.2.2, by decide⟩

/-! ### Dirty-path pipeline lemmas -/

theorem applyFilters_dirty_eq (st : TableState T) (h : st.isFilterDirty = true) :
    applyFilters st = { st with filteredData := freshFiltered st,
                                isFilterDirty := false, isSortDirty := true } := by
  unfold applyFilters
  rw [h]
  simp

theorem readRows_fst_dirty (st : TableState T) (h : st.isFilterDirty = true) :
    (readRows st).1 = jsSlice (computeSorted st.columns st.sortState (freshFiltered st))
      ((st.currentPage - 1) * st.pageSize)
      ((st.currentPage - 1) * st.pageSize + st.pageSize) := by
  show jsSlice (applySort (applyFilters st)).sortedData
    (((applySort (applyFilters st)).currentPage - 1) * (applySort (applyFilters st)).pageSize)
    (((applySort (applyFilters st)).currentPage - 1) * (applySort (applyFilters st)).pageSize +
      (applySort (applyFilters st)).pageSize) = _
  rw [applySort_currentPage, applyFilters_currentPage, applySort_pageSize,
    applyFilters_pageSize,
    applySort_dirty_sortedData _ (applyFilters_dirty_isSortDirty st h),
    applyFilters_columns, applyFilters_sortState, applyFilters_dirty_filteredData st h]

/-- C9: reading `rows` or `totalPages` twice with no intervening mutator
returns the same result both times, and a read changes none of the
public state (current page, sort state, filter state, global filter,
base rows). -/
theorem c9_read_idempotent {T : Type} (st : TableState T) :
    (readRows (readRows st).2).1 = (readRows st).1 ∧
    (readTotalPages (readTotalPages st).2).1 = (readTotalPages st).1 ∧
    (readRows st).2.currentPage = st.currentPage ∧
    (readRows st).2.sortState = st.sortState ∧
    (readRows st).2.filterState = st.filterState ∧
    (readRows st).2.globalFilter = st.globalFilter ∧
    (readRows st).2.originalData = st.originalData ∧
    (readTotalPages st).2.currentPage = st.currentPage ∧
    (readTotalPages st).2.sortState = st.sortState ∧
    (readTotalPages st).2.filterState = st.filterState ∧
    (readTotalPages st).2.globalFilter = st.globalFilter ∧
    (readTotalPages st).2.originalData = st.originalData := by
  have hclean1 : applyFilters (applySort (applyFilters st)) = applySort (applyFilters st) :=
    applyFilters_of_clean _ (by rw [applySort_isFilterDirty, applyFilters_isFilterDirty])
  have hclean2 : applySort (applySort (applyFilters st)) = applySort (applyFilters st) :=
    applySort_of_clean _ (applySort_isSortDirty _)
  have hcleanT : applyFilters (applyFilters st) = applyFilters st :=
    applyFilters_of_clean _ (applyFilters_isFilterDirty st)
  refine ⟨?_, ?_, ?_, ?_, ?_, ?_, ?_, ?_, ?_, ?_, ?_, ?_⟩
  · simp only [readRows]
    rw [hclean1, hclean2]
  · simp only [readTotalPages]
    rw [hcleanT]
  · rw [show (readRows st).2 = applySort (applyFilters st) from rfl,
      applySort_currentPage, applyFilters_currentPage]
  · rw [show (readRows st).2 = applySort (applyFilters st) from rfl,
      applySort_sortState, applyFilters_sortState]
  · rw [show (readRows st).2 = applySort (applyFilters st) from rfl,
      applySort_filterState, applyFilters_filterState]
  · rw [show (readRows st).2 = applySort (applyFilters st) from rfl,
      applySort_globalFilter, applyFilters_globalFilter]
  · rw [show (readRows st).2 = applySort (applyFilters st) from rfl,
      applySort_originalData, applyFilters_originalData]
  · exact applyFilters_currentPage st
  · exact applyFilters_sortState st
  · exact applyFilters_filterState st
  · exact applyFilters_globalFilter st
  · exact applyFilters_originalData st

/-- C8: replacing `baseRows` resets the page to 1 and marks the filter
stage dirty, while the sort state, filter state and global filter are
left unchanged; the next `rows` read therefore re-filters and re-sorts
the new data under the pre-existing criteria. -/
theorem c8_baseRows_frame {T : Type} (st : TableState T) (l : List T) :
    (setBaseRows st l).originalData = l ∧
    (setBaseRows st l).currentPage = 1 ∧
    (setBaseRows st l).isFilterDirty = true ∧
    (setBaseRows st l).sortState = st.sortState ∧
    (setBaseRows st l).filterState = st.filterState ∧
    (setBaseRows st l).globalFilter = st.globalFilter ∧
    (readRows (setBaseRows st l)).1 =
      jsSlice (computeSorted st.columns st.sortState
          (computeFiltered st.columns st.filterState st.globalFilterRegex l))
        0 st.pageSize := by
  refine ⟨rfl, rfl, rfl, rfl, rfl, rfl, ?_⟩
  rw [readRows_fst_dirty _ rfl]
  show jsSlice (computeSorted st.columns st.sortState
      (computeFiltered st.columns st.filterState st.globalFilterRegex l))
    ((1 - 1) * st.pageSize) ((1 - 1) * st.pageSize + st.pageSize) = _
  norm_num

/-! ### Claim C1: sort stability -/

/-- The column of the stability example: string values under id "value". -/
def colValue : ColumnDef (Int × String) :=
  { id := "value", key := fun r => JSValue.str r.2, name := "Value" }

/-- The five rows of the stability example, initially sorted ascending by
"value". -/
def cfgC1 : TableConfig (Int × String) :=
  { data := [(1, "A"), (2, "B"), (3, "A"), (4, "C"), (5, "B")],
    columns := [colValue],
    initialSort := some "value",
    initialSortDirection := some .asc }

/-- C1: with an active sort, every subsequence of the freshly filtered
data whose rows are pairwise tied under the engine's comparator is still
a subsequence of the sorted cache — tied rows keep their pre-sort
relative order; and the sample table sorted ascending by value yields id
order [1, 3, 2, 5, 4]. -/
theorem c1_sort_stability :
    (∀ (T : Type) (st : TableState T) (cid : String) (dir : SortDir) (l2 : List T),
      st.sortState = { columnId := some cid, direction := some dir } →
      cid ≠ "" →
      st.isFilterDirty = true →
      List.Sublist l2 (applyFilters st).filteredData →
      l2.Pairwise (fun a b => sortCmp st.columns cid dir a b = 0) →
      List.Sublist l2 (applySort (applyFilters st)).sortedData) ∧
    (readRows (mkTable cfgC1)).1.map Prod.fst = [1, 3, 2, 5, 4] := by
  constructor
  · intro T st cid dir l2 hs hne hd hsub hp
    rw [applyFilters_dirty_eq st hd] at hsub ⊢
    have hsd : (applySort
        { st with
          filteredData := freshFiltered st
          isFilterDirty := false
          isSortDirty := true }).sortedData
        = computeSorted st.columns st.sortState (freshFiltered st) := by
      rw [applySort_dirty_sortedData _ rfl]
    rw [hsd, hs]
    show List.Sublist l2 (if cid = "" then freshFiltered st
      else jsSort (sortCmp st.columns cid dir) (freshFiltered st))
    rw [if_neg hne]
    exact jsSort_stable _ _ l2 hsub (hp.imp fun h => le_of_eq h)
  · decide

/-- C1 witness: the stability statement applied to the example table,
with the two tied rows (1, "A") and (3, "A"). -/
theorem c1_witness :
    (mkTable cfgC1).sortState = { columnId := some "value", direction := some SortDir.asc } ∧
    "value" ≠ "" ∧
    (mkTable cfgC1).isFilterDirty = true ∧
    List.Sublist [(1, "A"), (3, "A")] (applyFilters (mkTable cfgC1)).filteredData ∧
    List.Pairwise
      (fun a b => sortCmp (mkTable cfgC1).columns "value" SortDir.asc a b = 0)
      [(1, "A"), (3, "A")] ∧
    List.Sublist [(1, "A"), (3, "A")] (applySort (applyFilters (mkTable cfgC1))).sortedData := by
  refine ⟨rfl, by decide, rfl, by decide, by decide, ?_⟩
  exact c1_sort_stability.1 (Int × String) (mkTable cfgC1) "value" SortDir.asc
    [(1, "A"), (3, "A")] rfl (by decide) rfl (by decide) (by decide)

/-! ### Claim C2: per-column filter semantics -/

/-- Modelled from the spec's words for claim C2, read literally: the row
passes iff for every column id whose filter set is non-empty, with a
custom filter predicate some set value satisfies it, and otherwise —
including an id that resolves to no registered column, whose resolved
value is `undefined` — the resolved value is a member of the set. -/
def specMatchesFiltersClaim (cols : List (ColumnDef T)) (fs : FilterState) (row : T) : Bool :=
  fs.all fun p =>
    if p.2.isEmpty then true
    else
      match (getColumnDef cols p.1).bind ColumnDef.filter with
      | some f => p.2.any fun fv => f (getValue cols row p.1) fv row
      | none => p.2.contains (getValue cols row p.1)

/-- A table over no columns at all, with a filter installed on the
unregistered id "ghost". -/
def stC2 : TableState JSValue :=
  setFilter (mkTable { data := [JSValue.null], columns := ([] : List (ColumnDef JSValue)) })
    "ghost" [JSValue.str "x"]

/-- C2 counterexample: with a non-empty filter set on an id that
resolves to no column, the engine passes the row while the claim's
membership reading rejects it (`undefined` is not in the set) — the
claimed iff fails at this input. -/
theorem c2_counterexample :
    stC2.filterState = [("ghost", [JSValue.str "x"])] ∧
    getColumnDef stC2.columns "ghost" = none ∧
    matchesFilters stC2.columns stC2.filterState JSValue.null = true ∧
    specMatchesFiltersClaim stC2.columns stC2.filterState JSValue.null = false := by
  refine ⟨rfl, rfl, rfl, rfl⟩

/-- C2 (amended): a row passes the per-column filter stage iff for every
filter-state entry with a non-empty set whose id resolves to a
registered column: with a custom filter predicate some value in the set
satisfies `filter(resolvedValue, filterValue, row)`, otherwise the
resolved value is a member of the set (OR inside a column's set, AND
across columns).  Empty sets reject no row, and — this is where the
original claim fails — entries whose id resolves to no registered column
also reject no row. -/
theorem c2_filter_semantics {T : Type} (cols : List (ColumnDef T)) (fs : FilterState)
    (row : T) :
    matchesFilters cols fs row = true ↔
      ∀ cid fset, (cid, fset) ∈ fs → fset ≠ [] →
        ∀ cd, getColumnDef cols cid = some cd →
          ((∀ f, cd.filter = some f →
              ∃ fv ∈ fset, f (getValue cols row cid) fv row = true) ∧
           (cd.filter = none → getValue cols row cid ∈ fset)) := by
  unfold matchesFilters
  rw [List.all_eq_true]
  constructor
  · intro h cid fset hmem hne cd hcd
    have hx := h (cid, fset) hmem
    rw [if_neg (by simpa using hne)] at hx
    rw [hcd] at hx
    dsimp only at hx
    constructor
    · intro f hf
      rw [hf] at hx
      dsimp only at hx
      simpa using hx
    · intro hf
      rw [hf] at hx
      dsimp only at hx
      simpa using hx
  · intro h p hp
    by_cases he : p.2.isEmpty = true
    · rw [if_pos he]
    · rw [if_neg he]
      cases hcd : getColumnDef cols p.1 with
      | none => rfl
      | some cd =>
        dsimp only
        have h2 := h p.1 p.2 hp (by simpa using he) cd hcd
        cases hf : cd.filter with
        | some f =>
          dsimp only
          simpa using h2.1 f hf
        | none =>
          dsimp only
          simpa using h2.2 hf

/-! ### Claim C5: custom sorter invocation -/

/-- Modelled from the spec's words for claim C5: the spec says a custom
sorter is invoked as `sorter(valueA, valueB, rowA, rowB)` — the two
resolved column values first.  Over rows that are themselves `JSValue`s
(so that values fit the sorter's argument type) this is the value-first
reading of that call, with the `'desc'` argument swap. -/
def specValueFirstCmp (cols : List (ColumnDef JSValue)) (cid : String) (dir : SortDir)
    (a b : JSValue) : Int :=
  match getColumnDef cols cid with
  | some cd =>
    match cd.sorter with
    | some f =>
      (match dir with
       | .asc => f (getValue cols a cid) (getValue cols b cid)
       | .desc => f (getValue cols b cid) (getValue cols a cid))
    | none => defaultCmp cols cid dir a b
  | none => defaultCmp cols cid dir a b

/-- Numeric comparator used as a custom sorter in the C5 instance. -/
def numCmp : JSValue → JSValue → Int := fun a b =>
  match jsToNum a, jsToNum b with
  | some x, some y => if x < y then -1 else if y < x then 1 else 0
  | _, _ => 0

/-- Value accessor negating a numeric row, so resolved values order
opposite to the rows themselves. -/
def negVal : JSValue → JSValue := fun r =>
  match r with
  | JSValue.num m => JSValue.num (-m)
  | v => v

/-- A column whose accessor negates the row and whose sorter compares
numerically. -/
def colNeg : ColumnDef JSValue :=
  { id := "n", key := fun r => r, name := "N",
    getValue := some negVal, sorter := some numCmp }

/-- Two numeric rows sorted ascending through `colNeg`. -/
def stC5 : TableState JSValue :=
  mkTable { data := [JSValue.num 1, JSValue.num 2], columns := [colNeg],
            initialSort := some "n", initialSortDirection := some .asc }

/-- C5 counterexample: the engine sorts with the sorter applied to the
rows, yielding [1, 2]; sorting with the claim's value-first invocation
(the resolved values are negated) would yield [2, 1] — so the claimed
calling convention contradicts the code at this input. -/
theorem c5_counterexample :
    (readRows stC5).1 = [JSValue.num 1, JSValue.num 2] ∧
    jsSort (specValueFirstCmp stC5.columns "n" SortDir.asc) stC5.originalData =
      [JSValue.num 2, JSValue.num 1] ∧
    (readRows stC5).1 ≠
      jsSort (specValueFirstCmp stC5.columns "n" SortDir.asc) stC5.originalData := by
  refine ⟨by decide, by decide, by decide⟩

/-- C5 (amended): a custom sorter is invoked with exactly two arguments,
the two rows — `sorter(rowA, rowB)`, not resolved values (see the
counterexample; full-row context is available because the arguments are
the rows themselves) — and direction `'desc'` is achieved by swapping
the two call arguments of the ascending comparator, not by negating its
returned sign. -/
theorem c5_sorter_rows {T : Type} (st : TableState T) (cid : String) (cd : ColumnDef T)
    (s : T → T → Int) (hcd : getColumnDef st.columns cid = some cd)
    (hs : cd.sorter = some s) (hne : cid ≠ "") (hd : st.isSortDirty = true) :
    (∀ a b, sortCmp st.columns cid SortDir.asc a b = s a b) ∧
    (∀ a b, sortCmp st.columns cid SortDir.desc a b = s b a) ∧
    (st.sortState = { columnId := some cid, direction := some SortDir.desc } →
      (applySort st).sortedData = jsSort (fun a b => s b a) st.filteredData) := by
  have hc : ∀ (dir : SortDir) a b, sortCmp st.columns cid dir a b =
      (match dir with | SortDir.asc => s a b | SortDir.desc => s b a) := by
    intro dir a b
    unfold sortCmp
    rw [hcd]
    dsimp only
    rw [hs]
  refine ⟨fun a b => hc .asc a b, fun a b => hc .desc a b, fun hss => ?_⟩
  rw [applySort_dirty_sortedData st hd, hss]
  show (if cid = "" then st.filteredData
    else jsSort (sortCmp st.columns cid SortDir.desc) st.filteredData) = _
  rw [if_neg hne]
  congr 1
  funext a b
  exact hc .desc a b

/-- C5 witness: the amended statement applied to the C5 instance. -/
theorem c5_witness :
    getColumnDef stC5.columns "n" = some colNeg ∧
    colNeg.sorter = some numCmp ∧
    "n" ≠ "" ∧
    stC5.isSortDirty = true ∧
    sortCmp stC5.columns "n" SortDir.desc (JSValue.num 1) (JSValue.num 2) =
      numCmp (JSValue.num 2) (JSValue.num 1) := by
  have hc := c5_sorter_rows stC5 "n" colNeg numCmp rfl rfl (by decide) rfl
  exact ⟨rfl, rfl, by decide, rfl, hc.2.1 (JSValue.num 1) (JSValue.num 2)⟩

/-! ### Claim C6: unknown column ids -/

theorem getKey_setKey (m : List (String × List JSValue)) (k : String) (v : List JSValue) :
    getKey (setKey m k v) k = some v := by
  induction m with
  | nil => simp [setKey, getKey]
  | cons p ps ih =>
    obtain ⟨a, b⟩ := p
    by_cases hp : (a == k) = true
    · have hak : a = k := by simpa using hp
      have hany : (((a, b) :: ps).any fun q => q.1 == k) = true := by
        simp [List.any_cons, hak]
      unfold setKey
      rw [if_pos hany, List.map_cons]
      dsimp only
      rw [if_pos hp]
      unfold getKey
      dsimp only
      rw [if_pos (by simp : ((k == k) = true))]
    · have hp2 : (a == k) = false := by
        simpa using hp
      cases han : (ps.any fun q => q.1 == k) with
      | true =>
        have hany : (((a, b) :: ps).any fun q => q.1 == k) = true := by
          simp [List.any_cons, han]
        unfold setKey
        rw [if_pos hany, List.map_cons]
        dsimp only
        rw [if_neg hp]
        unfold getKey
        dsimp only
        rw [if_neg hp]
        unfold setKey at ih
        rw [if_pos han] at ih
        exact ih
      | false =>
        have hany : (((a, b) :: ps).any fun q => q.1 == k) = false := by
          simp [List.any_cons, han]
          simpa using hp
        unfold setKey
        rw [if_neg (by simp [hany]), List.cons_append]
        unfold getKey
        dsimp only
        rw [if_neg hp]
        unfold setKey at ih
        rw [if_neg (by simp [han])] at ih
        exact ih

/-- C6 (amended): for a column id that resolves to no registered column,
`toggleSort` is a no-op and value resolution returns `undefined`, as
claimed; but `setFilter` and `clearFilter` are not no-ops even then —
each installs/overwrites the entry (a fresh set of the given values,
respectively an empty set) and resets the page to 1 (such entries never
affect filtering, which skips unresolved ids) — and `toggleFilter` /
`isFilterActive` throw a `TypeError` whenever the id has no filter-state
entry. -/
theorem c6_unknown_column {T : Type} (st : TableState T) (row : T) (cid : String)
    (v : JSValue) (vs : List JSValue) :
    (getColumnDef st.columns cid = none → toggleSort st cid = st) ∧
    (getColumnDef st.columns cid = none → getValue st.columns row cid = JSValue.undefined) ∧
    (getKey st.filterState cid = none → toggleFilter st cid v = none) ∧
    (getKey st.filterState cid = none → isFilterActive st cid v = none) ∧
    (setFilter st cid vs).currentPage = 1 ∧
    getKey (setFilter st cid vs).filterState cid = some (jsSet vs) ∧
    (clearFilter st cid).currentPage = 1 ∧
    getKey (clearFilter st cid).filterState cid = some [] := by
  refine ⟨fun h => toggleSort_of_unknown st cid h, fun h => ?_, fun h => ?_, fun h => ?_,
    rfl, ?_, rfl, ?_⟩
  · unfold getValue
    rw [h]
  · unfold toggleFilter
    rw [h]
  · unfold isFilterActive
    rw [h]
    rfl
  · exact getKey_setKey st.filterState cid (jsSet vs)
  · exact getKey_setKey st.filterState cid []

/-- C6 counterexample: with only column "a" registered, the id "ghost"
resolves to no column, yet `setFilter` and `clearFilter` both change the
filter state (and `toggleFilter` faults): the mutators are not all
no-ops on unknown ids. -/
theorem c6_counterexample :
    getColumnDef (mkTable cfgA).columns "ghost" = none ∧
    (setFilter (mkTable cfgA) "ghost" [JSValue.str "x"]).filterState ≠
      (mkTable cfgA).filterState ∧
    (clearFilter (mkTable cfgA) "ghost").filterState ≠ (mkTable cfgA).filterState ∧
    toggleFilter (mkTable cfgA) "ghost" (JSValue.str "x") = none := by
  refine ⟨rfl, by decide, by decide, rfl⟩

/-- C6 witness: the amended statement applied to the concrete table with
registered column "a" and unresolved id "ghost". -/
theorem c6_witness :
    getColumnDef (mkTable cfgA).columns "ghost" = none ∧
    getKey (mkTable cfgA).filterState "ghost" = none ∧
    toggleSort (mkTable cfgA) "ghost" = mkTable cfgA ∧
    getValue (mkTable cfgA).columns (0 : Int) "ghost" = JSValue.undefined ∧
    toggleFilter (mkTable cfgA) "ghost" JSValue.null = none ∧
    isFilterActive (mkTable cfgA) "ghost" JSValue.null = none ∧
    (setFilter (mkTable cfgA) "ghost" [JSValue.str "x"]).currentPage = 1 ∧
    getKey (setFilter (mkTable cfgA) "ghost" [JSValue.str "x"]).filterState "ghost" =
      some (jsSet [JSValue.str "x"]) ∧
    (clearFilter (mkTable cfgA) "ghost").currentPage = 1 ∧
    getKey (clearFilter (mkTable cfgA) "ghost").filterState "ghost" = some [] := by
  have h1 : getColumnDef (mkTable cfgA).columns "ghost" = none := rfl
  have h2 : getKey (mkTable cfgA).filterState "ghost" = none := rfl
  have hc := c6_unknown_column (mkTable cfgA) (0 : Int) "ghost" JSValue.null [JSValue.str "x"]
  exact ⟨h1, h2, hc.1 h1, hc.2.1 h1, hc.2.2.1 h2, hc.2.2.2.1 h2, hc.2.2.2.2.1,
    hc.2.2.2.2.2.1, hc.2.2.2.2.2.2.1, hc.2.2.2.2.2.2.2⟩

/-! ### Claim C7: zero or negative page size -/

theorem jsCeilDiv_nonpos (n : Nat) (d : Int) (h : d < 0) : jsCeilDiv n d ≤ 0 := by
  unfold jsCeilDiv
  rw [if_neg (by omega)]
  exact neg_nonpos.mpr (Int.ofNat_nonneg _)

theorem jsSlice_zero_neg (l : List α) (m : Int) (hm : m < 0) :
    jsSlice l 0 m = l.take (((l.length : Int) + m)).toNat := by
  simp only [jsSlice]
  rw [if_neg (by omega : ¬ (0 : Int) < 0), if_pos hm,
    min_eq_left (by omega : (0 : Int) ≤ (l.length : Int))]
  simp only [Int.toNat_zero, List.drop_zero, sub_zero]
  congr 1
  omega

/-- C7 (amended): `pageSize: 0` is replaced by the default 10 at
construction (pages of 10, not unbounded); a negative `pageSize` is
kept: no fault occurs and `totalPages` is 1, but the single page shows
`slice(0, pageSize)` — all but the last `|pageSize|` filtered-and-sorted
rows (empty once `|pageSize|` reaches the row count) — not all rows. -/
theorem c7_pagesize_nonpositive {T : Type} (cfg : TableConfig T) (n : Int)
    (hn : cfg.pageSize = some n) (hneg : n < 0) :
    (mkTable cfg).pageSize = n ∧
    (readTotalPages (mkTable cfg)).1 = 1 ∧
    (readRows (mkTable cfg)).1 =
      (computeSorted (mkTable cfg).columns (mkTable cfg).sortState
          (freshFiltered (mkTable cfg))).take
        ((((computeSorted (mkTable cfg).columns (mkTable cfg).sortState
            (freshFiltered (mkTable cfg))).length : Int) + n).toNat) ∧
    (∀ (cfg2 : TableConfig T), cfg2.pageSize = some 0 → (mkTable cfg2).pageSize = 10) := by
  have hps : (mkTable cfg).pageSize = n := by
    show (match cfg.pageSize with
      | some m => if m = 0 then 10 else m
      | none => 10) = n
    rw [hn]
    dsimp only
    rw [if_neg (by omega)]
  refine ⟨hps, ?_, ?_, ?_⟩
  · show max 1 (jsCeilDiv (applyFilters (mkTable cfg)).filteredData.length
      (applyFilters (mkTable cfg)).pageSize) = 1
    rw [applyFilters_pageSize, hps]
    have h2 := jsCeilDiv_nonpos (applyFilters (mkTable cfg)).filteredData.length n hneg
    exact max_eq_left (h2.trans (by norm_num))
  · rw [readRows_fst_dirty _ rfl]
    have hcp : (mkTable cfg).currentPage = 1 := rfl
    rw [hcp, hps]
    have ha : ((1 : Int) - 1) * n = 0 := by ring
    rw [ha, zero_add]
    exact jsSlice_zero_neg _ n hneg
  · intro cfg2 h0
    show ((match cfg2.pageSize with
      | some m => if m = 0 then 10 else m
      | none => 10 : Int)) = 10
    rw [h0]
    decide

/-- Five rows with page size -2. -/
def cfgC7 : TableConfig Int :=
  { data := [1, 2, 3, 4, 5], columns := [colA], pageSize := some (-2) }

/-- C7 counterexample: with five rows and pageSize -2, totalPages is 1
but `rows` returns only [1, 2, 3] — not all five filtered-and-sorted
rows on one page as claimed. -/
theorem c7_counterexample :
    (readTotalPages (mkTable cfgC7)).1 = 1 ∧
    computeSorted (mkTable cfgC7).columns (mkTable cfgC7).sortState
      (freshFiltered (mkTable cfgC7)) = [1, 2, 3, 4, 5] ∧
    (readRows (mkTable cfgC7)).1 = [1, 2, 3] ∧
    (readRows (mkTable cfgC7)).1 ≠ [1, 2, 3, 4, 5] := by
  refine ⟨by decide, by decide, by decide, by decide⟩

/-- C7 witness: the amended statement applied to the pageSize -2 table. -/
theorem c7_witness :
    cfgC7.pageSize = some (-2) ∧ (-2 : Int) < 0 ∧
    (mkTable cfgC7).pageSize = -2 ∧ (readTotalPages (mkTable cfgC7)).1 = 1 := by
  have hc := c7_pagesize_nonpositive cfgC7 (-2) rfl (by decide)
  exact ⟨rfl, by decide, hc.1, hc.2.1⟩

/-! ### Claim C10: isSortable on unknown ids -/

/-- C10: an unresolved column id is reported sortable — `isSortable`
returns false exactly for a resolved column carrying an explicit
`sortable: false` — even though `toggleSort` on that same unknown id is
a no-op. -/
theorem c10_isSortable_unknown {T : Type} (st : TableState T) (cid : String) :
    (getColumnDef st.columns cid = none →
      isSortable st cid = true ∧ toggleSort st cid = st) ∧
    (isSortable st cid = false ↔
      ∃ cd, getColumnDef st.columns cid = some cd ∧ cd.sortable = some false) := by
  constructor
  · intro h
    refine ⟨?_, toggleSort_of_unknown st cid h⟩
    unfold isSortable
    rw [h]
  · unfold isSortable
    cases h : getColumnDef st.columns cid with
    | none =>
      dsimp only
      simp
    | some cd =>
      dsimp only
      simp

/-- C10 witness: with only column "a" registered, the id "ghost" is
unresolved, reported sortable, and its toggle is a no-op. -/
theorem c10_witness :
    getColumnDef (mkTable cfgA).columns "ghost" = none ∧
    isSortable (mkTable cfgA) "ghost" = true ∧
    toggleSort (mkTable cfgA) "ghost" = mkTable cfgA := by
  have h : getColumnDef (mkTable cfgA).columns "ghost" = none := rfl
  have hc := (c10_isSortable_unknown (mkTable cfgA) "ghost").1 h
  exact ⟨h, hc.1, hc.2⟩
